import Mathlib

/-!
Shallow embedding of the parsing core of the pgn crate (src/pgn.rs).

Input lines are modelled as lists of characters.  Rust functions that can
panic (calls to unwrap) are modelled in the Option monad: a result of
none is an aborted, panicking computation, and some r is a normal return.
-/

/-- Rust str::starts_with(char) over a list of characters. -/
def starts_with (c : Char) : List Char → Bool
  | [] => false
  | x :: _ => x = c

/-- Rust str::ends_with(char): the last character equals c. -/
def ends_with (c : Char) (l : List Char) : Bool :=
  starts_with c l.reverse

/-- Rust String::replace(c, ""): removes every occurrence of the character c. -/
def removeChar (c : Char) (l : List Char) : List Char :=
  l.filter (fun x => x ≠ c)

/-- Rust str::split_once(c): splits at the first occurrence of c, which is
dropped; none when c does not occur. -/
def split_once (c : Char) : List Char → Option (List Char × List Char)
  | [] => none
  | x :: xs =>
    if x = c then some ([], xs)
    else (split_once c xs).map (fun p => (x :: p.1, p.2))

/-- Rust Vec::join(" ") over the collected movetext lines. -/
def join_with_space : List (List Char) → List Char
  | [] => []
  | [l] => l
  | l :: ls => l ++ ' ' :: join_with_space ls

/-- Decimal digit run: the numeric value of a non-empty all-digit list,
none otherwise. -/
def parse_digits (l : List Char) : Option Nat :=
  if l = [] then none
  else if l.all Char.isDigit then
    some (l.foldl (fun acc ch => acc * 10 + (ch.toNat - '0'.toNat)) 0)
  else none

/-- Rust str::parse::<u16>(): optional leading plus sign, then decimal
digits, value at most 65535. -/
def parse_u16 (l : List Char) : Option Nat :=
  let digits :=
    match l with
    | '+' :: rest => rest
    | _ => l
  match parse_digits digits with
  | some n => if n ≤ 65535 then some n else none
  | none => none

/-- Rust str::parse::<i16>(): optional sign, then decimal digits, value
within the i16 range. -/
def parse_i16 (l : List Char) : Option Int :=
  match l with
  | '-' :: rest =>
    match parse_digits rest with
    | some n => if n ≤ 32768 then some (-(n : Int)) else none
    | none => none
  | '+' :: rest =>
    match parse_digits rest with
    | some n => if n ≤ 32767 then some ((n : Int)) else none
    | none => none
  | _ =>
    match parse_digits l with
    | some n => if n ≤ 32767 then some ((n : Int)) else none
    | none => none

/-- Modelled from the spec: chrono's NaiveDate, reduced to the calendar
fields the spec names (the chrono crate is not part of this repository). -/
structure NaiveDate where
  year : Nat
  month : Nat
  day : Nat
deriving DecidableEq, Repr

/-- Modelled from the spec: chrono's NaiveTime, reduced to hour, minute
and second (the chrono crate is not part of this repository). -/
structure NaiveTime where
  hour : Nat
  minute : Nat
  second : Nat
deriving DecidableEq, Repr

/-- Splits a list on every occurrence of the character c. -/
def split_all (c : Char) : List Char → List (List Char)
  | [] => [[]]
  | x :: xs =>
    if x = c then [] :: split_all c xs
    else
      match split_all c xs with
      | [] => [[x]]
      | y :: ys => (x :: y) :: ys

/-- Modelled from the spec: chrono's NaiveDate::parse_from_str with the
format YYYY.MM.DD (the spec's stated date format for Date and UTCDate). -/
def parse_date (l : List Char) : Option NaiveDate :=
  match split_all '.' l with
  | [y, m, d] =>
    match parse_digits y, parse_digits m, parse_digits d with
    | some yn, some mn, some dn =>
      if 1 ≤ mn ∧ mn ≤ 12 ∧ 1 ≤ dn ∧ dn ≤ 31 then some ⟨yn, mn, dn⟩ else none
    | _, _, _ => none
  | _ => none

/-- Modelled from the spec: chrono's NaiveTime::parse_from_str with the
format HH:MM:SS (the spec's stated time format for UTCTime). -/
def parse_time (l : List Char) : Option NaiveTime :=
  match split_all ':' l with
  | [h, m, s] =>
    match parse_digits h, parse_digits m, parse_digits s with
    | some hn, some mn, some sn =>
      if hn ≤ 23 ∧ mn ≤ 59 ∧ sn ≤ 59 then some ⟨hn, mn, sn⟩ else none
    | _, _, _ => none
  | _ => none

/-- Modelled from the spec: chrono's NaiveTime::parse_from_str with the
format HH:MM:SS followed by a trailing timezone token (EndTime). -/
def parse_time_tz (l : List Char) : Option NaiveTime :=
  match split_once ' ' l with
  | some (t, tz) => if tz = [] then none else parse_time t
  | none => none

/-- Enum TagError from src/pgn.rs. -/
inductive TagError where
  | NoOpeningSquareBracket
  | NoClosingSquareBracket
  | UnknownTag (key : String) (value : String)
deriving DecidableEq, Repr

/-- Enum Tag from src/pgn.rs, in source constructor order. -/
inductive Tag where
  | Event (s : String)
  | Site (s : String)
  | Date (d : NaiveDate)
  | Round (s : String)
  | White (s : String)
  | Black (s : String)
  | Result (s : String)
  | UTCDate (d : NaiveDate)
  | Eco (s : String)
  | WhiteElo (n : Nat)
  | BlackElo (n : Nat)
  | Annotator (s : String)
  | WhiteRatingDiff (n : Int)
  | BlackRatingDiff (n : Int)
  | Variant (s : String)
  | TimeControl (s : String)
  | Opening (s : String)
  | Termination (s : String)
  | EndTime (t : NaiveTime)
  | UTCTime (t : NaiveTime)
deriving DecidableEq, Repr

/-- Enum Move from src/pgn.rs. -/
inductive Move where
  | Black (s : String)
  | White (s : String)
deriving DecidableEq, Repr

/-- Key dispatch of Tag::try_from (the match on the split key and the
quote-stripped value), in source branch order.  Branches whose typed
conversion unwraps a parse are none (panic) when the parse fails. -/
def Tag.dispatch (key v : String) : Option (Except TagError Tag) :=
  if key = "Event" then some (Except.ok (Tag.Event v))
  else if key = "Site" then some (Except.ok (Tag.Site v))
  else if key = "Date" then (parse_date v.data).map (fun d => Except.ok (Tag.Date d))
  else if key = "UTCDate" then (parse_date v.data).map (fun d => Except.ok (Tag.UTCDate d))
  else if key = "Round" then some (Except.ok (Tag.Round v))
  else if key = "White" then some (Except.ok (Tag.White v))
  else if key = "Black" then some (Except.ok (Tag.Black v))
  else if key = "Result" then some (Except.ok (Tag.Result v))
  else if key = "WhiteElo" then (parse_u16 v.data).map (fun n => Except.ok (Tag.WhiteElo n))
  else if key = "BlackElo" then (parse_u16 v.data).map (fun n => Except.ok (Tag.BlackElo n))
  else if key = "ECO" then some (Except.ok (Tag.Eco v))
  else if key = "Annotator" then some (Except.ok (Tag.Annotator v))
  else if key = "WhiteRatingDiff" then (parse_i16 v.data).map (fun n => Except.ok (Tag.WhiteRatingDiff n))
  else if key = "BlackRatingDiff" then (parse_i16 v.data).map (fun n => Except.ok (Tag.BlackRatingDiff n))
  else if key = "Variant" then some (Except.ok (Tag.Variant v))
  else if key = "TimeControl" then some (Except.ok (Tag.TimeControl v))
  else if key = "Opening" then some (Except.ok (Tag.Opening v))
  else if key = "Termination" then some (Except.ok (Tag.Termination v))
  else if key = "EndTime" then (parse_time_tz v.data).map (fun t => Except.ok (Tag.EndTime t))
  else if key = "UTCTime" then (parse_time v.data).map (fun t => Except.ok (Tag.UTCTime t))
  else some (Except.error (TagError.UnknownTag key v))

/-- Tag::try_from(&str) from src/pgn.rs: bracket checks, bracket removal
(replace removes every bracket), split_once(' ').unwrap() (none on a line
with no space: panic), quote stripping, then key dispatch. -/
def Tag.try_from (value : List Char) : Option (Except TagError Tag) :=
  if starts_with '[' value = false then
    some (Except.error TagError.NoOpeningSquareBracket)
  else if ends_with ']' value = false then
    some (Except.error TagError.NoClosingSquareBracket)
  else
    let value2 := removeChar ']' (removeChar '[' value)
    match split_once ' ' value2 with
    | none => none
    | some (key, rest) => Tag.dispatch ⟨key⟩ ⟨removeChar '"' rest⟩

/-- From<(&str, &str)> for Move in src/pgn.rs: parse the first component
as u16 (unwrap: none on failure), even number gives Black, odd White. -/
def Move.from_pair (value : List Char × List Char) : Option Move :=
  match parse_u16 value.1 with
  | none => none
  | some n =>
    some (if n % 2 = 0 then Move.Black ⟨value.2⟩ else Move.White ⟨value.2⟩)

/-- parse_tags from src/pgn.rs: keep the lines starting with a bracket and
decode each; a panic inside any try_from aborts the whole pass. -/
def parse_tags (lines : List (List Char)) : Option (List (Except TagError Tag)) :=
  (lines.filter (fun l => starts_with '[' l)).mapM Tag.try_from

/-- parse_moves from src/pgn.rs: joins the non-tag, non-empty lines, then
returns an empty deque.  The source's split statement binds an unused
value referencing an undefined pattern and the function ends with
VecDeque::new(), so no half-move is ever produced. -/
def parse_moves (lines : List (List Char)) : Option (List Move) :=
  let line := join_with_space
    (lines.filter (fun l => (!starts_with '[' l) && (!l.isEmpty)))
  some []

/-- Decidable equality for Except results, used to compare tag results. -/
instance {ε α : Type} [DecidableEq ε] [DecidableEq α] : DecidableEq (Except ε α) := fun a b =>
  match a, b with
  | Except.ok x, Except.ok y =>
    if h : x = y then Decidable.isTrue (by rw [h])
    else Decidable.isFalse (fun he => h (by cases he; rfl))
  | Except.error x, Except.error y =>
    if h : x = y then Decidable.isTrue (by rw [h])
    else Decidable.isFalse (fun he => h (by cases he; rfl))
  | Except.ok _, Except.error _ => Decidable.isFalse (fun he => Except.noConfusion he)
  | Except.error _, Except.ok _ => Decidable.isFalse (fun he => Except.noConfusion he)

/-- Struct Pgn from src/pgn.rs. -/
structure Pgn where
  tags : List (Except TagError Tag)
  moves : List Move
deriving DecidableEq, Repr

/-- Pgn::new from src/pgn.rs, over the already-read list of lines (the
file reading itself is I/O glue outside the parsing core). -/
def Pgn.new (lines : List (List Char)) : Option Pgn := do
  let t ← parse_tags lines
  let m ← parse_moves lines
  pure ⟨t, m⟩

/-- Input lines of the spec's round-trip scenario. -/
def c1_lines : List (List Char) :=
  ["[Event \"Test\"]".data, "[White \"A\"]".data, "[Black \"B\"]".data,
   "".data, "1. e4 c6 2. Nf3 d5".data]

/-- C1: evaluating the parse at the round-trip input: the three tag lines
decode successfully as claimed, but the half-move sequence is empty, not
the four claimed half-moves, because parse_moves produces no moves. -/
theorem roundtrip_eval :
    Pgn.new c1_lines =
      some ⟨[Except.ok (Tag.Event "Test"), Except.ok (Tag.White "A"),
             Except.ok (Tag.Black "B")], []⟩ ∧
    (Pgn.new c1_lines).map Pgn.moves ≠
      some [Move.White "e4", Move.Black "c6", Move.White "Nf3", Move.Black "d5"] :=
  ⟨rfl, by decide⟩

/-- C2: a typed-value conversion failure inside an otherwise well-formed,
well-bracketed tag line aborts the decoder (the unwrap panics, modelled as
none) instead of returning a recoverable per-line error value. -/
theorem whiteElo_nonnumeric_aborts :
    Tag.try_from "[WhiteElo \"abc\"]".data = none := rfl

/-- C3: a line not starting with an opening bracket fails with
NoOpeningSquareBracket; a line starting with one but not ending with a
closing bracket fails with NoClosingSquareBracket; when both brackets are
absent the opening-bracket error takes precedence. -/
theorem bracket_error_precedence (l : List Char) :
    (starts_with '[' l = false →
      Tag.try_from l = some (Except.error TagError.NoOpeningSquareBracket)) ∧
    (starts_with '[' l = true → ends_with ']' l = false →
      Tag.try_from l = some (Except.error TagError.NoClosingSquareBracket)) ∧
    (starts_with '[' l = false → ends_with ']' l = false →
      Tag.try_from l = some (Except.error TagError.NoOpeningSquareBracket)) := by
  refine ⟨fun h => ?_, fun h1 h2 => ?_, fun h _ => ?_⟩
  · simp [Tag.try_from, h]
  · simp [Tag.try_from, h1, h2]
  · simp [Tag.try_from, h]

/-- Witness for C3 at concrete lines missing each bracket. -/
theorem bracket_error_precedence_witness :
    Tag.try_from "xyz".data = some (Except.error TagError.NoOpeningSquareBracket) ∧
    Tag.try_from "[xyz".data = some (Except.error TagError.NoClosingSquareBracket) ∧
    Tag.try_from "xyz".data = some (Except.error TagError.NoOpeningSquareBracket) :=
  ⟨(bracket_error_precedence "xyz".data).1 rfl,
   (bracket_error_precedence "[xyz".data).2.1 rfl rfl,
   (bracket_error_precedence "xyz".data).2.2 rfl rfl⟩

/-- C6: when the move-number text parses as an unsigned integer, an odd
number yields a White half-move and an even number a Black one, with the
move token carried verbatim. -/
theorem move_parity (num token : List Char) (n : Nat)
    (h : parse_u16 num = some n) :
    (n % 2 = 1 → Move.from_pair (num, token) = some (Move.White ⟨token⟩)) ∧
    (n % 2 = 0 → Move.from_pair (num, token) = some (Move.Black ⟨token⟩)) := by
  constructor <;> intro hp <;> simp [Move.from_pair, h, hp]

/-- Witness for C6 at the four literal inputs of the claim. -/
theorem move_parity_witness :
    Move.from_pair ("1".data, "e4".data) = some (Move.White "e4") ∧
    Move.from_pair ("2".data, "c6".data) = some (Move.Black "c6") ∧
    Move.from_pair ("3".data, "Nf3".data) = some (Move.White "Nf3") ∧
    Move.from_pair ("4".data, "exd5".data) = some (Move.Black "exd5") :=
  ⟨(move_parity "1".data "e4".data 1 rfl).1 rfl,
   (move_parity "2".data "c6".data 2 rfl).2 rfl,
   (move_parity "3".data "Nf3".data 3 rfl).1 rfl,
   (move_parity "4".data "exd5".data 4 rfl).2 rfl⟩

/-- Predicate of C7's hypothesis: the flat movetext ends in a bare
move-number marker, a digit immediately followed by a final period, with
no following move token. -/
def ends_with_bare_marker (l : List Char) : Bool :=
  match l.reverse with
  | '.' :: c :: _ => c.isDigit
  | _ => false

/-- C7: when the joined movetext ends in a bare move-number marker, the
tokenizer still returns normally (no panic, modelled by a some result) and
produces no half-move for that segment. -/
theorem bare_marker_no_crash (lines : List (List Char))
    (h : ends_with_bare_marker (join_with_space
      (lines.filter (fun l => (!starts_with '[' l) && (!l.isEmpty)))) = true) :
    parse_moves lines = some [] := rfl

/-- Witness for C7 at movetext ending in the dangling marker 2. -/
theorem bare_marker_no_crash_witness :
    ends_with_bare_marker (join_with_space
      ((["1. e4 2.".data] : List (List Char)).filter
        (fun l => (!starts_with '[' l) && (!l.isEmpty)))) = true ∧
    parse_moves ["1. e4 2.".data] = some [] :=
  ⟨rfl, bare_marker_no_crash ["1. e4 2.".data] rfl⟩

/-- C8: parsing the same input line sequence twice yields structurally
equal parsed-game records, component for component. -/
theorem parse_deterministic (l₁ l₂ : List (List Char)) (h : l₁ = l₂)
    (p₁ p₂ : Pgn) (h₁ : Pgn.new l₁ = some p₁) (h₂ : Pgn.new l₂ = some p₂) :
    p₁.tags = p₂.tags ∧ p₁.moves = p₂.moves := by
  subst h
  rw [h₁] at h₂
  injection h₂ with h₂
  subst h₂
  exact ⟨rfl, rfl⟩

/-- Witness for C8 at a concrete one-line input parsed twice. -/
theorem parse_deterministic_witness :
    (Pgn.mk [Except.ok (Tag.Event "Test")] []).tags =
      (Pgn.mk [Except.ok (Tag.Event "Test")] []).tags ∧
    (Pgn.mk [Except.ok (Tag.Event "Test")] []).moves =
      (Pgn.mk [Except.ok (Tag.Event "Test")] []).moves :=
  parse_deterministic ["[Event \"Test\"]".data] ["[Event \"Test\"]".data] rfl
    (Pgn.mk [Except.ok (Tag.Event "Test")] [])
    (Pgn.mk [Except.ok (Tag.Event "Test")] []) rfl rfl

/-- C9: the movetext tokenizer as implemented returns the empty half-move
sequence on every input line sequence. -/
theorem parse_moves_empty (lines : List (List Char)) :
    parse_moves lines = some [] := rfl

/-- removeChar leaves a list without the character unchanged. -/
theorem removeChar_eq_self (c : Char) (l : List Char) (h : ∀ x ∈ l, x ≠ c) :
    removeChar c l = l := by
  simp only [removeChar]
  exact List.filter_eq_self.mpr (fun a ha => by simpa using h a ha)

/-- removeChar drops a head equal to the character. -/
theorem removeChar_cons_eq (c : Char) (l : List Char) :
    removeChar c (c :: l) = removeChar c l := by
  simp [removeChar]

/-- removeChar keeps a head different from the character. -/
theorem removeChar_cons_ne (c x : Char) (l : List Char) (h : x ≠ c) :
    removeChar c (x :: l) = x :: removeChar c l := by
  simp [removeChar, h]

/-- removeChar distributes over append. -/
theorem removeChar_append (c : Char) (l₁ l₂ : List Char) :
    removeChar c (l₁ ++ l₂) = removeChar c l₁ ++ removeChar c l₂ := by
  simp [removeChar]

/-- split_once splits at the first separator after a separator-free prefix. -/
theorem split_once_append (k rest : List Char) (hk : ∀ c ∈ k, c ≠ ' ') :
    split_once ' ' (k ++ ' ' :: rest) = some (k, rest) := by
  induction k with
  | nil => simp [split_once]
  | cons x xs ih =>
    have hx : x ≠ ' ' := hk x (by simp)
    have ihh := ih (fun c hc => hk c (by simp [hc]))
    simp [split_once, hx, ihh]

/-- Decoding a well-formed bracketed, quoted line whose key and value are
free of the stripped characters reduces to the key dispatch on the exact
key and value. -/
theorem try_from_wellformed (k v : List Char)
    (hk : ∀ c ∈ k, c ≠ '[' ∧ c ≠ ']' ∧ c ≠ ' ')
    (hv : ∀ c ∈ v, c ≠ '[' ∧ c ≠ ']' ∧ c ≠ '"') :
    Tag.try_from ('[' :: (k ++ (' ' :: ('"' :: (v ++ ['"', ']']))))) =
      Tag.dispatch ⟨k⟩ ⟨v⟩ := by
  have h1 : starts_with '['
      ('[' :: (k ++ (' ' :: ('"' :: (v ++ ['"', ']']))))) = true := rfl
  have h2 : ends_with ']'
      ('[' :: (k ++ (' ' :: ('"' :: (v ++ ['"', ']']))))) = true := by
    simp [ends_with, starts_with]
  have e1 : removeChar '[' ('[' :: (k ++ (' ' :: ('"' :: (v ++ ['"', ']']))))) =
      k ++ (' ' :: ('"' :: (v ++ ['"', ']']))) := by
    rw [removeChar_cons_eq]
    apply removeChar_eq_self
    refine List.forall_mem_append.mpr ⟨fun x hx => (hk x hx).1, ?_⟩
    refine List.forall_mem_cons.mpr ⟨by decide, ?_⟩
    refine List.forall_mem_cons.mpr ⟨by decide, ?_⟩
    exact List.forall_mem_append.mpr ⟨fun x hx => (hv x hx).1, by decide⟩
  have e2 : removeChar ']' (k ++ (' ' :: ('"' :: (v ++ ['"', ']'])))) =
      k ++ (' ' :: ('"' :: (v ++ ['"']))) := by
    have hkk : removeChar ']' k = k :=
      removeChar_eq_self _ _ (fun x hx => (hk x hx).2.1)
    have hvv : removeChar ']' v = v :=
      removeChar_eq_self _ _ (fun x hx => (hv x hx).2.1)
    rw [removeChar_append, hkk, removeChar_cons_ne _ _ _ (by decide),
        removeChar_cons_ne _ _ _ (by decide), removeChar_append, hvv]
    rfl
  have e3 : split_once ' ' (k ++ (' ' :: ('"' :: (v ++ ['"'])))) =
      some (k, '"' :: (v ++ ['"'])) :=
    split_once_append k _ (fun c hc => (hk c hc).2.2)
  have e4 : removeChar '"' ('"' :: (v ++ ['"'])) = v := by
    rw [removeChar_cons_eq, removeChar_append,
        removeChar_eq_self _ _ (fun x hx => (hv x hx).2.2)]
    simp [removeChar]
  simp [Tag.try_from, h1, h2, e1, e2, e3, e4]

/-- Free-text tag keys as the decoder spells them, with the constructor
each key selects.  The ECO variant is matched by the key string ECO. -/
def freeTextTags : List (String × (String → Tag)) :=
  [("Event", Tag.Event), ("Site", Tag.Site), ("Round", Tag.Round),
   ("Result", Tag.Result), ("Annotator", Tag.Annotator),
   ("Variant", Tag.Variant), ("TimeControl", Tag.TimeControl),
   ("Opening", Tag.Opening), ("Termination", Tag.Termination),
   ("ECO", Tag.Eco)]

/-- C4 counterexample: a value containing a square bracket is not
preserved: every bracket in the line is stripped, not only the
surrounding ones. -/
theorem value_bracket_not_preserved :
    Tag.try_from "[Event \"a[1]\"]".data = some (Except.ok (Tag.Event "a1")) ∧
    Tag.try_from "[Event \"a[1]\"]".data ≠ some (Except.ok (Tag.Event "a[1]")) :=
  ⟨rfl, by decide⟩

/-- C4 (amended): for each free-text key as the code spells it and every
value free of square brackets and double quotes, decoding the well-formed
line succeeds and the corresponding Tag variant carries the value
exactly. -/
theorem free_text_roundtrip (k : String) (f : String → Tag)
    (hkf : (k, f) ∈ freeTextTags) (v : List Char)
    (hv : ∀ c ∈ v, c ≠ '[' ∧ c ≠ ']' ∧ c ≠ '"') :
    Tag.try_from ('[' :: (k.data ++ (' ' :: ('"' :: (v ++ ['"', ']']))))) =
      some (Except.ok (f ⟨v⟩)) := by
  fin_cases hkf <;>
  · rw [try_from_wellformed _ v (by decide) hv]
    rfl

/-- Witness for C4 at the key Event and the bracket-free value Test. -/
theorem free_text_roundtrip_witness :
    Tag.try_from
      ('[' :: ("Event".data ++ (' ' :: ('"' :: ("Test".data ++ ['"', ']']))))) =
      some (Except.ok (Tag.Event "Test")) :=
  free_text_roundtrip "Event" Tag.Event (by simp [freeTextTags]) "Test".data
    (by decide)

/-- Key strings the decoder recognizes, in source branch order. -/
def knownKeys : List String :=
  ["Event", "Site", "Date", "UTCDate", "Round", "White", "Black", "Result",
   "WhiteElo", "BlackElo", "ECO", "Annotator", "WhiteRatingDiff",
   "BlackRatingDiff", "Variant", "TimeControl", "Opening", "Termination",
   "EndTime", "UTCTime"]

/-- C5 counterexample: the well-bracketed line [Foo] contains no space, so
the split unwrap aborts (none) instead of failing with UnknownTag. -/
theorem unknown_no_space_aborts :
    Tag.try_from "[Foo]".data = none ∧
    Tag.try_from "[Foo]".data ≠
      some (Except.error (TagError.UnknownTag "Foo" "")) :=
  ⟨rfl, by decide⟩

/-- C5 (amended): for every well-bracketed line whose bracket-stripped
content splits on a first space into a key not among the recognized key
strings and a remainder, decoding fails with UnknownTag carrying that key
and the quote-stripped remainder. -/
theorem unknown_key_error (l k rest : List Char)
    (h1 : starts_with '[' l = true) (h2 : ends_with ']' l = true)
    (h3 : split_once ' ' (removeChar ']' (removeChar '[' l)) = some (k, rest))
    (h4 : (⟨k⟩ : String) ∉ knownKeys) :
    Tag.try_from l =
      some (Except.error (TagError.UnknownTag ⟨k⟩ ⟨removeChar '"' rest⟩)) := by
  simp only [knownKeys, List.mem_cons, List.not_mem_nil, or_false,
    not_or] at h4
  obtain ⟨q1, q2, q3, q4, q5, q6, q7, q8, q9, q10, q11, q12, q13, q14, q15,
    q16, q17, q18, q19, q20⟩ := h4
  simp [Tag.try_from, h1, h2, h3, Tag.dispatch, q1, q2, q3, q4, q5, q6, q7,
    q8, q9, q10, q11, q12, q13, q14, q15, q16, q17, q18, q19, q20]

/-- Witness for C5 at the unknown key Foo with value bar. -/
theorem unknown_key_error_witness :
    Tag.try_from "[Foo \"bar\"]".data =
      some (Except.error (TagError.UnknownTag "Foo" "bar")) :=
  unknown_key_error "[Foo \"bar\"]".data "Foo".data "\"bar\"".data rfl rfl rfl
    (by decide)

/-- Every element produced by a successful Option-monadic map comes from
some element of the input list. -/
theorem mapM_option_mem {α β : Type} (f : α → Option β) :
    ∀ (l : List α) (res : List β), l.mapM f = some res →
      ∀ b ∈ res, ∃ a ∈ l, f a = some b := by
  intro l
  induction l with
  | nil =>
    intro res h b hb
    simp only [List.mapM_nil, Option.pure_def] at h
    cases h
    simp at hb
  | cons x xs ih =>
    intro res h b hb
    rw [List.mapM_cons] at h
    rcases h1 : f x with _ | y <;> rw [h1] at h
    · simp at h
    · rcases h2 : xs.mapM f with _ | ys <;> rw [h2] at h
      · simp at h
      · simp at h
        subst h
        rcases List.mem_cons.mp hb with rfl | hbs
        · exact ⟨x, List.mem_cons_self x xs, h1⟩
        · obtain ⟨a, ha, hfa⟩ := ih ys h2 b hbs
          exact ⟨a, List.mem_cons_of_mem x ha, hfa⟩

set_option maxHeartbeats 1000000 in
/-- The key dispatch never returns the missing-opening-bracket error. -/
theorem dispatch_ne_no_opening (k v : String) (r : Except TagError Tag)
    (h : Tag.dispatch k v = some r) :
    r ≠ Except.error TagError.NoOpeningSquareBracket := by
  intro hr
  subst hr
  by_cases hk : k ∈ knownKeys
  · fin_cases hk <;>
      first
        | exact Except.noConfusion (Option.some.inj h)
        | (obtain ⟨a, _, ha⟩ := Option.map_eq_some'.mp h
           exact Except.noConfusion ha)
  · simp only [knownKeys, List.mem_cons, List.not_mem_nil, or_false,
      not_or] at hk
    obtain ⟨q1, q2, q3, q4, q5, q6, q7, q8, q9, q10, q11, q12, q13, q14, q15,
      q16, q17, q18, q19, q20⟩ := hk
    simp [Tag.dispatch, q1, q2, q3, q4, q5, q6, q7, q8, q9, q10, q11, q12,
      q13, q14, q15, q16, q17, q18, q19, q20] at h

/-- Decoding a line that starts with an opening bracket never returns the
missing-opening-bracket error. -/
theorem try_from_ne_no_opening (l : List Char)
    (hsw : starts_with '[' l = true) (r : Except TagError Tag)
    (h : Tag.try_from l = some r) :
    r ≠ Except.error TagError.NoOpeningSquareBracket := by
  intro hr
  subst hr
  simp only [Tag.try_from, hsw, Bool.true_eq_false, if_false] at h
  split at h
  · simp at h
  · split at h
    · simp at h
    · exact dispatch_ne_no_opening _ _ _ h rfl

/-- C10: every tag result of a record built by Pgn.new differs from the
missing-opening-bracket error: only lines starting with an opening
bracket reach the decoder, so that branch is unreachable. -/
theorem no_opening_error_unreachable (lines : List (List Char))
    (ts : List (Except TagError Tag)) (h : parse_tags lines = some ts) :
    ∀ r ∈ ts, r ≠ Except.error TagError.NoOpeningSquareBracket := by
  intro r hr
  unfold parse_tags at h
  obtain ⟨l, hl, hfl⟩ := mapM_option_mem Tag.try_from _ ts h r hr
  exact try_from_ne_no_opening l (List.mem_filter.mp hl).2 r hfl

/-- Witness for C10 at a one-line input decoding to an unknown-tag error. -/
theorem no_opening_error_unreachable_witness :
    (Except.error (TagError.UnknownTag "X" "y") : Except TagError Tag) ≠
      Except.error TagError.NoOpeningSquareBracket :=
  no_opening_error_unreachable ["[X \"y\"]".data]
    [Except.error (TagError.UnknownTag "X" "y")] rfl
    (Except.error (TagError.UnknownTag "X" "y")) (by simp)

